import Mathlib

/-!
Verification of the reactive authentication-state core of `authok-angular`.

The development shallowly embeds the RxJS pipelines of `AuthState`
(`src/unnamed/part_000`, i.e. `auth.state.ts`) as pure functions over
event lists, together with spec-modelled fragments for the parts of the
service whose source is absent (the `AuthService` startup / redirect /
logout coordination, known only through the spec and its test file).
-/

namespace AuthokAngular

/-- The `distinctUntilChanged` RxJS operator, tracking the last emitted
value. `last = none` before any emission. -/
def distinctUntilChangedAux {α : Type _} [DecidableEq α] :
    Option α → List α → List α
  | _, [] => []
  | last, x :: xs =>
    if last = some x then distinctUntilChangedAux last xs
    else x :: distinctUntilChangedAux (some x) xs

/-- The `distinctUntilChanged` operator as used in
`AuthState.isAuthenticated$` and `AuthState.isAuthenticatedTrigger$`. -/
def distinctUntilChanged {α : Type _} [DecidableEq α] (l : List α) : List α :=
  distinctUntilChangedAux none l

/-- The last element of a list, falling back to `fb` when the list is
empty.  Used to reason about the value a late subscriber observes. -/
def lastOr {α : Type _} (fb : Option α) (l : List α) : Option α :=
  match l.getLast? with
  | some x => some x
  | none => fb

theorem lastOr_nil {α : Type _} (fb : Option α) : lastOr fb ([] : List α) = fb := rfl

theorem lastOr_cons {α : Type _} (fb : Option α) (x : α) (l : List α) :
    lastOr fb (x :: l) = lastOr (some x) l := by
  induction l with
  | nil => rfl
  | cons y ys _ =>
    simp [lastOr, List.getLast?]

theorem lastOr_eq_getLast? {α : Type _} (l : List α) :
    lastOr none l = l.getLast? := by
  cases h : l.getLast? <;> simp [lastOr, h]

/-- Deduplication never loses the most recent value: the last element of
the deduplicated stream (with fallback to the tracked previous value)
is the last element of the raw stream. -/
theorem lastOr_distinctUntilChangedAux {α : Type _} [DecidableEq α]
    (l : List α) : ∀ last : Option α,
    lastOr last (distinctUntilChangedAux last l) = lastOr last l := by
  induction l with
  | nil => intro last; rfl
  | cons x xs ih =>
    intro last
    by_cases h : last = some x
    · simp only [distinctUntilChangedAux, if_pos h]
      rw [ih last, lastOr_cons, h]
    · simp only [distinctUntilChangedAux, if_neg h]
      rw [lastOr_cons, lastOr_cons, ih (some x)]

/-- A subscriber replaying the deduplicated stream observes, as its most
recent value, exactly the last raw value. -/
theorem getLast?_distinctUntilChanged {α : Type _} [DecidableEq α]
    (l : List α) : (distinctUntilChanged l).getLast? = l.getLast? := by
  have h := lastOr_distinctUntilChangedAux l none
  rwa [lastOr_eq_getLast?, lastOr_eq_getLast?] at h

theorem head?_distinctUntilChangedAux_ne {α : Type _} [DecidableEq α]
    (l : List α) : ∀ (last : Option α) (y : α),
    (distinctUntilChangedAux last l).head? = some y → last ≠ some y := by
  induction l with
  | nil => intro last y h; simp [distinctUntilChangedAux] at h
  | cons x xs ih =>
    intro last y h
    by_cases hx : last = some x
    · simp only [distinctUntilChangedAux, if_pos hx] at h
      exact ih last y h
    · simp only [distinctUntilChangedAux, if_neg hx, List.head?_cons,
        Option.some.injEq] at h
      subst h; exact hx

/-- The deduplicated stream never contains two equal consecutive
values. -/
theorem chain'_ne_distinctUntilChangedAux {α : Type _} [DecidableEq α]
    (l : List α) : ∀ last : Option α,
    (distinctUntilChangedAux last l).Chain' (· ≠ ·) := by
  induction l with
  | nil => intro last; simp [distinctUntilChangedAux]
  | cons x xs ih =>
    intro last
    by_cases hx : last = some x
    · simp only [distinctUntilChangedAux, if_pos hx]
      exact ih last
    · simp only [distinctUntilChangedAux, if_neg hx]
      refine List.chain'_cons'.mpr ⟨?_, ih (some x)⟩
      intro y hy hxy
      exact head?_distinctUntilChangedAux_ne xs (some x) y hy (by rw [hxy])

theorem chain'_ne_distinctUntilChanged {α : Type _} [DecidableEq α]
    (l : List α) : (distinctUntilChanged l).Chain' (· ≠ ·) :=
  chain'_ne_distinctUntilChangedAux l none

/-! ### The access-token change trigger

`AuthState.accessToken$` is a `ReplaySubject<string>(1)`;
`AuthState.accessTokenTrigger$` pipes it through
`scan` (tracking a `{previous, current}` pair, both starting at `null`)
and `filter(({previous, current}) => previous !== current)`. -/

/-- The `{ current, previous }` accumulator of the `scan` operator in
`AuthState.accessTokenTrigger$`; `none` plays the role of `null`. -/
structure TokenPair where
  current : Option String
  previous : Option String
deriving DecidableEq, Repr

/-- One step of the `scan` in `AuthState.accessTokenTrigger$`:
`{ previous: acc.current, current }`. -/
def scanStep (acc : TokenPair) (t : String) : TokenPair :=
  { previous := acc.current, current := some t }

/-- The emissions of the `scan` operator over a list of source
emissions, starting from accumulator `acc`. -/
def scanEmissions (acc : TokenPair) : List String → List TokenPair
  | [] => []
  | t :: ts => scanStep acc t :: scanEmissions (scanStep acc t) ts

/-- `AuthState.accessTokenTrigger$`: scan from
`{ current: null, previous: null }`, then keep the pairs with
`previous !== current`.  Since `current` is always the token just
recorded, we expose the trigger as the list of those token values. -/
def accessTokenTrigger (tokens : List String) : List String :=
  ((scanEmissions { current := none, previous := none } tokens).filter
      (fun p => p.previous ≠ p.current)).filterMap (·.current)

/-- Recursive characterization of the trigger: a firing happens exactly
when the newly recorded token differs from the previously recorded one
(`prev`, `none` before the first token). -/
def accessTokenTriggerFrom (prev : Option String) : List String → List String
  | [] => []
  | t :: ts =>
    if prev = some t then accessTokenTriggerFrom (some t) ts
    else t :: accessTokenTriggerFrom (some t) ts

/-- The scan accumulator's `previous` field never influences later
emissions (only `current` is read by `scanStep`). -/
theorem scanEmissions_previous_irrel (l : List String)
    (c p₁ p₂ : Option String) :
    scanEmissions { current := c, previous := p₁ } l
      = scanEmissions { current := c, previous := p₂ } l := by
  cases l with
  | nil => rfl
  | cons t ts => simp [scanEmissions, scanStep]

theorem accessTokenTrigger_eq_from (tokens : List String) :
    ∀ prev : Option String,
      ((scanEmissions { current := prev, previous := none } tokens).filter
          (fun p => p.previous ≠ p.current)).filterMap (·.current)
        = accessTokenTriggerFrom prev tokens := by
  induction tokens with
  | nil => intro prev; rfl
  | cons t ts ih =>
    intro prev
    show ((({ previous := prev, current := some t } : TokenPair) ::
        scanEmissions { previous := prev, current := some t } ts).filter
          (fun p => p.previous ≠ p.current)).filterMap (·.current)
        = accessTokenTriggerFrom prev (t :: ts)
    rw [scanEmissions_previous_irrel ts (some t) prev none]
    by_cases h : prev = some t
    · simp only [accessTokenTriggerFrom, if_pos h, List.filter_cons]
      have hc : ¬ (({ previous := prev, current := some t } : TokenPair).previous
          ≠ ({ previous := prev, current := some t } : TokenPair).current) := by
        simpa using h
      rw [if_neg (by simpa using hc)]
      exact ih (some t)
    · simp only [accessTokenTriggerFrom, if_neg h, List.filter_cons]
      have hc : (({ previous := prev, current := some t } : TokenPair).previous
          ≠ ({ previous := prev, current := some t } : TokenPair).current) := by
        simpa using h
      rw [if_pos (by simpa using hc)]
      simp only [List.filterMap_cons]
      rw [ih (some t)]

/-- `accessTokenTrigger` unfolded to its recursive characterization. -/
theorem accessTokenTrigger_def (tokens : List String) :
    accessTokenTrigger tokens = accessTokenTriggerFrom none tokens :=
  accessTokenTrigger_eq_from tokens none

/-- Appending one more recorded token fires the trigger exactly when the
token differs from the previously recorded one (`lastOr prev ts`). -/
theorem accessTokenTriggerFrom_append (ts : List String) (t : String) :
    ∀ prev : Option String,
      accessTokenTriggerFrom prev (ts ++ [t])
        = accessTokenTriggerFrom prev ts
            ++ (if lastOr prev ts = some t then [] else [t]) := by
  induction ts with
  | nil =>
    intro prev
    by_cases h : prev = some t <;>
      simp [accessTokenTriggerFrom, lastOr, h]
  | cons x xs ih =>
    intro prev
    rw [List.cons_append]
    by_cases h : prev = some x
    · simp only [accessTokenTriggerFrom, if_pos h]
      rw [ih (some x), lastOr_cons]
    · simp only [accessTokenTriggerFrom, if_neg h]
      rw [ih (some x), lastOr_cons, List.cons_append]

/-- The replay buffer of a `ReplaySubject(1)`: a fresh subscriber is
immediately given the most recent emission, if any. -/
def replaySubjectBuffer {α : Type _} (l : List α) : List α :=
  l.getLast?.toList

/-! ### The gated `isAuthenticated$` pipeline

`AuthState.isAuthenticatedTrigger$` pipes `isLoading$` through
`filter(loading => !loading)`, `distinctUntilChanged`, and a `switchMap`
into the merged client checks; `AuthState.isAuthenticated$` adds
`distinctUntilChanged` and `shareReplay(1)`.  `loading` is the list of
`isLoading$` emissions and `checks` the list of boolean results of the
`authokClient.isAuthenticated()` calls of the merged trigger. -/

/-- Emissions of `AuthState.isAuthenticatedTrigger$`: nothing at all
until `isLoading$` has emitted `false`; afterwards the merged check
results. -/
def isAuthenticatedTriggerEmissions (loading checks : List Bool) : List Bool :=
  match distinctUntilChanged (loading.filter (fun b => !b)) with
  | [] => []
  | _ :: _ => checks

/-- Emissions of `AuthState.isAuthenticated$` (before the
`shareReplay(1)` replay, which is modelled by `List.getLast?`). -/
def isAuthenticatedEmissions (loading checks : List Bool) : List Bool :=
  distinctUntilChanged (isAuthenticatedTriggerEmissions loading checks)

theorem distinctUntilChanged_cons {α : Type _} [DecidableEq α]
    (x : α) (xs : List α) :
    distinctUntilChanged (x :: xs)
      = x :: distinctUntilChangedAux (some x) xs := by
  simp [distinctUntilChanged, distinctUntilChangedAux]

theorem isAuthenticatedTriggerEmissions_of_not_loaded
    (loading checks : List Bool) (h : ¬ false ∈ loading) :
    isAuthenticatedTriggerEmissions loading checks = [] := by
  have hf : loading.filter (fun b => !b) = [] := by
    apply List.filter_eq_nil_iff.mpr
    intro b hb
    cases b with
    | true => simp
    | false => exact absurd hb h
  simp [isAuthenticatedTriggerEmissions, hf, distinctUntilChanged,
    distinctUntilChangedAux]

theorem isAuthenticatedTriggerEmissions_of_loaded
    (loading checks : List Bool) (h : false ∈ loading) :
    isAuthenticatedTriggerEmissions loading checks = checks := by
  have hf : false ∈ loading.filter (fun b => !b) := by
    simp [List.mem_filter, h]
  cases hcase : loading.filter (fun b => !b) with
  | nil => rw [hcase] at hf; simp at hf
  | cons x xs =>
    rw [isAuthenticatedTriggerEmissions, hcase, distinctUntilChanged_cons]

/-! ### The derived `user$` / `idTokenClaims$` streams

Both pipe `isAuthenticatedTrigger$` through
`concatMap(authenticated => authenticated ? client.fetch() : of(null))`,
where `fetch` is `getUser` resp. `getIdTokenClaims`.  The client's
answer at trigger `i` is given by `fetchAt i` (`none` models both `null`
and `undefined`). -/

/-- `concatMap` over the trigger booleans, the fetch at trigger `n + i`
for the `i`-th element. -/
def derivedEmissionsFrom {β : Type _} (fetchAt : Nat → Option β) :
    Nat → List Bool → List (Option β)
  | _, [] => []
  | i, b :: bs =>
    (if b then fetchAt i else none) :: derivedEmissionsFrom fetchAt (i + 1) bs

/-- Emissions of `AuthState.user$` (with `fetchAt` the client's
`getUser` answers) and of `AuthState.idTokenClaims$` (with `fetchAt` the
`getIdTokenClaims` answers). -/
def derivedEmissions {β : Type _} (checks : List Bool)
    (fetchAt : Nat → Option β) : List (Option β) :=
  derivedEmissionsFrom fetchAt 0 checks

theorem derivedEmissionsFrom_get? {β : Type _} (fetchAt : Nat → Option β)
    (checks : List Bool) : ∀ n i,
    (derivedEmissionsFrom fetchAt n checks).get? i
      = (checks.get? i).map (fun b => if b then fetchAt (n + i) else none) := by
  induction checks with
  | nil => intro n i; simp [derivedEmissionsFrom]
  | cons b bs ih =>
    intro n i
    cases i with
    | zero => simp [derivedEmissionsFrom]
    | succ j =>
      simp only [derivedEmissionsFrom, List.get?_cons_succ]
      rw [ih (n + 1) j]
      have : n + 1 + j = n + (j + 1) := by omega
      rw [this]

theorem derivedEmissions_get? {β : Type _} (fetchAt : Nat → Option β)
    (checks : List Bool) (i : Nat) :
    (derivedEmissions checks fetchAt).get? i
      = (checks.get? i).map (fun b => if b then fetchAt i else none) := by
  rw [derivedEmissions, derivedEmissionsFrom_get? fetchAt checks 0 i]
  simp

/-- The last element of the length-`i + 1` window of a stream is its
`i`-th emission. -/
theorem getLast?_take_succ {α : Type _} :
    ∀ (l : List α) (i : Nat), i < l.length →
      (l.take (i + 1)).getLast? = l.get? i := by
  intro l
  induction l with
  | nil => intro i hi; simp at hi
  | cons x xs ih =>
    intro i hi
    cases i with
    | zero => simp
    | succ j =>
      have hj : j < xs.length := by simpa using hi
      cases xs with
      | nil => simp at hj
      | cons y ys =>
        rw [List.take_succ_cons, List.get?_cons_succ]
        rw [← ih j hj]
        rw [List.take_succ_cons]
        exact List.getLast?_cons_cons

/-! ### Completion-order model of the merged trigger

In `AuthState.isAuthenticatedTrigger$` the three origins are combined
with `merge`, and the token/refresh origins call the asynchronous
`authokClient.isAuthenticated()` through `mergeMap`.  `mergeMap`
subscribes each inner check as soon as its trigger fires, so the merged
output emits each check's boolean at the instant the check resolves.  A
queued trigger is modelled as the pair of the boolean its check resolves
to and the (distinct) instant at which it resolves; the queue order is
the list order. -/

/-- Insert a resolved check into a list ordered by resolution instant. -/
def insertByTime (x : Bool × Nat) : List (Bool × Nat) → List (Bool × Nat)
  | [] => [x]
  | y :: ys => if y.2 ≤ x.2 then y :: insertByTime x ys else x :: y :: ys

/-- Order resolved checks by their resolution instant. -/
def sortByTime (l : List (Bool × Nat)) : List (Bool × Nat) :=
  l.foldr insertByTime []

/-- The emissions the code's `merge`/`mergeMap` combination produces:
the booleans, in the order the checks resolve. -/
def mergeMapEmissions (l : List (Bool × Nat)) : List Bool :=
  (sortByTime l).map Prod.fst

/-- Modelled from the spec: the serialized (concatenating) discipline
the spec demands — checks processed strictly one at a time, so the
emissions follow the queue order regardless of resolution instants. -/
def concatEmissions (l : List (Bool × Nat)) : List Bool :=
  l.map Prod.fst

theorem sortByTime_of_chain (l : List (Bool × Nat))
    (h : l.Chain' (fun a b => a.2 < b.2)) : sortByTime l = l := by
  induction l with
  | nil => rfl
  | cons x xs ih =>
    have hx := (List.chain'_cons'.mp h).1
    have hxs := (List.chain'_cons'.mp h).2
    show insertByTime x (sortByTime xs) = x :: xs
    rw [ih hxs]
    cases xs with
    | nil => rfl
    | cons y ys =>
      have hlt : x.2 < y.2 := hx y rfl
      simp [insertByTime, Nat.not_le_of_lt hlt, Nat.not_le.mpr hlt]

/-! ### Error semantics of the merged trigger

The pipeline of `AuthState.isAuthenticatedTrigger$` contains no
`catchError` and never calls `AuthState.setError`; a rejection of
`authokClient.isAuthenticated()` therefore propagates through
`mergeMap`/`merge`/`switchMap` as a stream error, terminating the
composed stream.  `runChecks` processes the resolved checks in arrival
order. -/

/-- The observable effects of one run of the merged trigger. -/
structure CheckRun (E : Type _) where
  /-- Values emitted downstream (towards `isAuthenticated$`). -/
  emissions : List Bool
  /-- The stream error, if a check rejected (terminal). -/
  streamError : Option E
  /-- Emissions on `error$` caused by the pipeline (it never calls
  `setError`). -/
  errorChannel : List E
deriving DecidableEq, Repr

/-- Process resolved checks in arrival order: an `ok` boolean is
emitted; the first rejection errors the stream, so nothing after it is
processed and nothing reaches `error$`. -/
def runChecks {E : Type _} : List (Except E Bool) → CheckRun E
  | [] => { emissions := [], streamError := none, errorChannel := [] }
  | .ok b :: rest =>
    let r := runChecks rest
    { emissions := b :: r.emissions, streamError := r.streamError,
      errorChannel := r.errorChannel }
  | .error e :: _ =>
    { emissions := [], streamError := some e, errorChannel := [] }

/-- Emissions of `isAuthenticated$` (the downstream
`distinctUntilChanged`) for a run of resolved checks. -/
def isAuthenticatedAfterChecks {E : Type _}
    (rs : List (Except E Bool)) : List Bool :=
  distinctUntilChanged (runChecks rs).emissions

theorem runChecks_ok_append {E : Type _} (pre : List Bool) (e : E)
    (post : List (Except E Bool)) :
    runChecks ((pre.map .ok) ++ .error e :: post)
      = { emissions := pre, streamError := some e, errorChannel := [] } := by
  induction pre with
  | nil => rfl
  | cons b bs ih => simp [runChecks, ih]

/-! ### Spec-modelled `AuthService` fragments

`auth.service.ts` is not among the available sources; only its test
file is.  The service-level behaviour below is therefore modelled from
the spec. -/

/-- Events in the life of one `AuthService` instance during startup. -/
inductive SvcEvent where
  /-- The startup session check resolves. -/
  | resolveSessionCheck
  /-- `ngOnDestroy` tears the instance down. -/
  | destroy
deriving DecidableEq, Repr

/-- State of one `AuthService` instance: whether it has been destroyed,
and the emissions its `isLoading$` has produced so far. -/
structure SvcState where
  destroyed : Bool
  loadingEmissions : List Bool
deriving DecidableEq, Repr

/-- Modelled from the spec: the missing `auth.service.ts` startup
sequence.  The instance's session check, when it resolves, sets the
loading flag to `false` only if the instance is still live (teardown is
"fire and ignore": a destroyed instance suppresses the late
resolution's side effect); `ngOnDestroy` marks the instance
destroyed. -/
def svcStep (s : SvcState) : SvcEvent → SvcState
  | .destroy => { s with destroyed := true }
  | .resolveSessionCheck =>
    if s.destroyed then s
    else { s with loadingEmissions := s.loadingEmissions ++ [false] }

/-- The initial state: `isLoadingSubject$` is a
`BehaviorSubject<boolean>(true)` (from `AuthState`), so subscribers have
observed `[true]` at construction. -/
def svcInit : SvcState := { destroyed := false, loadingEmissions := [true] }

/-- Run one instance through its startup events. -/
def svcRun (evs : List SvcEvent) : SvcState := evs.foldl svcStep svcInit

theorem svcFold_destroyed (evs : List SvcEvent) :
    ∀ s : SvcState, s.destroyed = true → evs.foldl svcStep s = s := by
  induction evs with
  | nil => intro s _; rfl
  | cons e rest ih =>
    intro s hs
    have hstep : svcStep s e = s := by
      cases e with
      | destroy => cases s; simp_all [svcStep]
      | resolveSessionCheck => simp [svcStep, hs]
    rw [List.foldl_cons, hstep]
    exact ih s hs

theorem svcFold_no_resolve (evs : List SvcEvent) :
    ∀ s : SvcState, (∀ e ∈ evs, e = SvcEvent.destroy) →
      (evs.foldl svcStep s).loadingEmissions = s.loadingEmissions := by
  induction evs with
  | nil => intro s _; rfl
  | cons e rest ih =>
    intro s h
    have he : e = SvcEvent.destroy := h e (List.mem_cons_self e rest)
    subst he
    rw [List.foldl_cons]
    have := ih { s with destroyed := true }
      (fun e' he' => h e' (List.mem_cons_of_mem _ he'))
    simpa [svcStep] using this

theorem svcFold_count_false (evs : List SvcEvent) :
    ∀ s : SvcState,
      (evs.foldl svcStep s).loadingEmissions.count false
        ≤ s.loadingEmissions.count false + evs.count SvcEvent.resolveSessionCheck := by
  induction evs with
  | nil => intro s; simp
  | cons e rest ih =>
    intro s
    cases e with
    | destroy =>
      rw [List.foldl_cons]
      calc ((rest.foldl svcStep { s with destroyed := true }).loadingEmissions).count false
          ≤ s.loadingEmissions.count false + rest.count SvcEvent.resolveSessionCheck :=
            ih { s with destroyed := true }
        _ ≤ _ := by
            apply Nat.add_le_add_left
            exact List.count_le_count_cons SvcEvent.resolveSessionCheck SvcEvent.destroy rest
    | resolveSessionCheck =>
      rw [List.foldl_cons]
      by_cases hd : s.destroyed
      · calc ((rest.foldl svcStep (svcStep s SvcEvent.resolveSessionCheck)).loadingEmissions).count false
            = ((rest.foldl svcStep s).loadingEmissions).count false := by
              rw [svcStep, if_pos hd]
          _ ≤ s.loadingEmissions.count false + rest.count SvcEvent.resolveSessionCheck := ih s
          _ ≤ _ := by
              apply Nat.add_le_add_left
              exact List.count_le_count_cons _ _ rest
      · have hstep : svcStep s SvcEvent.resolveSessionCheck
            = { s with loadingEmissions := s.loadingEmissions ++ [false] } := by
          rw [svcStep, if_neg hd]
        rw [hstep]
        calc ((rest.foldl svcStep _).loadingEmissions).count false
            ≤ (s.loadingEmissions ++ [false]).count false
                + rest.count SvcEvent.resolveSessionCheck := ih _
          _ = s.loadingEmissions.count false + 1 + rest.count SvcEvent.resolveSessionCheck := by
              simp [List.count_append]
          _ ≤ s.loadingEmissions.count false + (rest.count SvcEvent.resolveSessionCheck + 1) := by omega
          _ = _ := by
              rw [List.count_cons]
              simp

/-! ### Spec-modelled redirect-callback coordination -/

/-- The configuration the redirect-callback coordinator consults. -/
structure AuthCfg where
  /-- Skip automatic redirect-callback processing entirely. -/
  skipRedirectCallback : Bool
  /-- Path navigated to when the callback exchange fails. -/
  errorPath : Option String
deriving DecidableEq, Repr

/-- The preserved application-state payload carried through the
redirect, with its optional navigation target. -/
structure AppState where
  target : Option String
deriving DecidableEq, Repr

/-- The externally observable effects of one startup run. -/
structure StartupOutcome (E : Type _) where
  handleCallbackCalls : Nat
  checkSessionCalls : Nat
  navCalls : List String
  errors : List E
  loadingFinal : Bool
deriving DecidableEq, Repr

/-- Modelled from the spec: the missing `auth.service.ts` startup
coordination.  When the URL carries a `code`/`state` (or
`error`/`state`) pair and callback processing is not skipped, the
external client's `handleRedirectCallback` is invoked exactly once; on
success the preserved app-state's target (default `/`) is navigated to,
on failure the error is recorded and the configured error path (default
`/`) is navigated to.  Otherwise a silent `checkSession` runs and no
navigation happens.  Either way the loading flag ends `false`. -/
def runStartup {E : Type _} (cfg : AuthCfg) (hasCodeState : Bool)
    (cbResult : Except E (Option AppState)) : StartupOutcome E :=
  if hasCodeState ∧ ¬ cfg.skipRedirectCallback then
    match cbResult with
    | .ok appSt =>
      { handleCallbackCalls := 1, checkSessionCalls := 0,
        navCalls := [(appSt.bind (·.target)).getD "/"],
        errors := [], loadingFinal := false }
    | .error e =>
      { handleCallbackCalls := 1, checkSessionCalls := 0,
        navCalls := [cfg.errorPath.getD "/"],
        errors := [e], loadingFinal := false }
  else
    { handleCallbackCalls := 0, checkSessionCalls := 1,
      navCalls := [], errors := [], loadingFinal := false }

/-- The navigation target claimed by the spec: the path carried in the
preserved app state if present, else the configured error path if the
exchange failed and one is configured, else `/`. -/
def claimedTarget {E : Type _} (cfg : AuthCfg)
    (cbResult : Except E (Option AppState)) : String :=
  match cbResult with
  | .ok appSt =>
    match appSt.bind (·.target) with
    | some p => p
    | none => "/"
  | .error _ =>
    match cfg.errorPath with
    | some p => p
    | none => "/"

/-! ### Spec-modelled local-only logout -/

/-- The externally observable effects of one `logout` call. -/
structure LogoutOutcome where
  /-- Invocations of the external client's network logout. -/
  clientLogoutCalls : Nat
  /-- Asynchronous `isAuthenticated()` round trips performed. -/
  clientAuthChecks : Nat
  /-- Values forced synchronously onto the authentication stream. -/
  forcedAuthEmissions : List Bool
deriving DecidableEq, Repr

/-- Modelled from the spec: the missing `auth.service.ts` `logout`.
With `localOnly: true` the authentication flag is forced to `false`
synchronously, without any round trip and without invoking the external
client's network logout; otherwise the external logout is invoked. -/
def logoutRun (localOnly : Bool) : LogoutOutcome :=
  if localOnly then
    { clientLogoutCalls := 0, clientAuthChecks := 0,
      forcedAuthEmissions := [false] }
  else
    { clientLogoutCalls := 1, clientAuthChecks := 0,
      forcedAuthEmissions := [] }

/-! ## Claim theorems -/

/-- Claim C9: the access-token trigger fires iff the newly recorded
token differs from the immediately preceding recorded token; in
particular, recording the same token twice in a row fires the trigger
exactly once, while any differing value fires it. -/
theorem accessTokenTrigger_fires_iff_changed (ts : List String) (t : String) :
    accessTokenTrigger (ts ++ [t])
      = accessTokenTrigger ts ++ (if ts.getLast? = some t then [] else [t])
    ∧ accessTokenTrigger ((ts ++ [t]) ++ [t]) = accessTokenTrigger (ts ++ [t]) := by
  constructor
  · rw [accessTokenTrigger_def, accessTokenTrigger_def,
      accessTokenTriggerFrom_append, lastOr_eq_getLast?]
  · rw [accessTokenTrigger_def, accessTokenTrigger_def,
      accessTokenTriggerFrom_append, lastOr_eq_getLast?]
    simp

/-- Claim C10: a token recorded before the merged trigger activates is
not lost: the `ReplaySubject(1)` buffer holds exactly the most recent
recorded token, a fresh subscription replays it and the trigger fires
exactly once for it (its first firing), earlier tokens being dropped. -/
theorem accessTokenTrigger_replay_activation (pre post : List String)
    (t : String) (h : pre.getLast? = some t) :
    replaySubjectBuffer pre = [t]
    ∧ accessTokenTrigger (replaySubjectBuffer pre ++ post)
        = accessTokenTrigger (t :: post)
    ∧ (accessTokenTrigger (replaySubjectBuffer pre ++ post)).head? = some t
    ∧ accessTokenTrigger (replaySubjectBuffer pre) = [t] := by
  have hb : replaySubjectBuffer pre = [t] := by
    rw [replaySubjectBuffer, h]; rfl
  refine ⟨hb, by rw [hb]; rfl, ?_, ?_⟩
  · rw [hb, List.singleton_append, accessTokenTrigger_def]
    simp [accessTokenTriggerFrom]
  · rw [hb, accessTokenTrigger_def]
    simp [accessTokenTriggerFrom]

/-- Witness for C10 at a concrete input. -/
theorem accessTokenTrigger_replay_activation_witness :
    (["a", "b"] : List String).getLast? = some "b"
    ∧ (replaySubjectBuffer ["a", "b"] = ["b"]
      ∧ accessTokenTrigger (replaySubjectBuffer ["a", "b"] ++ ["b"])
          = accessTokenTrigger ["b", "b"]
      ∧ (accessTokenTrigger (replaySubjectBuffer ["a", "b"] ++ ["b"])).head? = some "b"
      ∧ accessTokenTrigger (replaySubjectBuffer ["a", "b"]) = ["b"]) :=
  ⟨rfl, accessTokenTrigger_replay_activation ["a", "b"] ["b"] "b" rfl⟩

/-- Claim C4: `isAuthenticated$` emits nothing until `isLoading$` has
emitted `false`; once live its emissions are the deduplicated check
results (no two equal consecutive values); and the `shareReplay(1)`
value a late subscriber receives is the most recent check result. -/
theorem isAuthenticated_stream_contract (loading checks : List Bool) :
    isAuthenticatedEmissions loading checks
        = (if false ∈ loading then distinctUntilChanged checks else [])
    ∧ (isAuthenticatedEmissions loading checks).Chain' (· ≠ ·)
    ∧ (isAuthenticatedEmissions loading checks).getLast?
        = (if false ∈ loading then checks.getLast? else none) := by
  by_cases h : false ∈ loading
  · refine ⟨?_, chain'_ne_distinctUntilChanged _, ?_⟩
    · rw [isAuthenticatedEmissions,
        isAuthenticatedTriggerEmissions_of_loaded loading checks h, if_pos h]
    · rw [isAuthenticatedEmissions,
        isAuthenticatedTriggerEmissions_of_loaded loading checks h,
        getLast?_distinctUntilChanged, if_pos h]
  · refine ⟨?_, chain'_ne_distinctUntilChanged _, ?_⟩
    · rw [isAuthenticatedEmissions,
        isAuthenticatedTriggerEmissions_of_not_loaded loading checks h, if_neg h]
      rfl
    · rw [isAuthenticatedEmissions,
        isAuthenticatedTriggerEmissions_of_not_loaded loading checks h, if_neg h]
      rfl

/-- Claim C8: `logout({localOnly: true})` forces `false` onto the
authentication stream synchronously — no client round trip, no network
logout call — and whatever was emitted before, the value a subscriber
then observes on `isAuthenticated$` is `false`. -/
theorem local_logout_contract (prior : List Bool) :
    logoutRun true
        = { clientLogoutCalls := 0, clientAuthChecks := 0,
            forcedAuthEmissions := [false] }
    ∧ (distinctUntilChanged (prior ++ [false])).getLast? = some false := by
  refine ⟨rfl, ?_⟩
  rw [getLast?_distinctUntilChanged]
  simp

/-- Claim C1: for any trigger sequence, the `isAuthenticated$` /
`user$` / `idTokenClaims$` triple is mutually consistent at every
trigger `i`: the flag a subscriber most recently observed equals the
check result of trigger `i`, and the user / claims emissions of trigger
`i` are `null` exactly when that check returned `false` (given the
external client supplies a profile and claims while authenticated). -/
theorem authState_triple_consistency {U C : Type _} (checks : List Bool)
    (userAt : Nat → Option U) (claimsAt : Nat → Option C)
    (huser : ∀ i, checks.get? i = some true → (userAt i).isSome = true)
    (hclaims : ∀ i, checks.get? i = some true → (claimsAt i).isSome = true)
    (i : Nat) (b : Bool) (hib : checks.get? i = some b) :
    (distinctUntilChanged (checks.take (i + 1))).getLast? = some b
    ∧ ((derivedEmissions checks userAt).get? i = some none ↔ b = false)
    ∧ ((derivedEmissions checks claimsAt).get? i = some none ↔ b = false) := by
  have hi : i < checks.length := by
    by_contra hc
    rw [List.get?_eq_none.mpr (Nat.le_of_not_lt hc)] at hib
    exact Option.noConfusion hib
  refine ⟨?_, ?_, ?_⟩
  · rw [getLast?_distinctUntilChanged, getLast?_take_succ checks i hi, hib]
  · rw [derivedEmissions_get?, hib]
    cases b with
    | false => simp
    | true =>
      have hs := huser i hib
      rcases Option.isSome_iff_exists.mp hs with ⟨u, hu⟩
      simp [hu]
  · rw [derivedEmissions_get?, hib]
    cases b with
    | false => simp
    | true =>
      have hs := hclaims i hib
      rcases Option.isSome_iff_exists.mp hs with ⟨c, hc⟩
      simp [hc]

/-- Witness for C1 at a concrete input. -/
theorem authState_triple_consistency_witness :
    (distinctUntilChanged (([true, false] : List Bool).take 1)).getLast? = some true
    ∧ ((derivedEmissions [true, false] (fun _ => some (0 : Nat))).get? 0 = some none
        ↔ true = false)
    ∧ ((derivedEmissions [true, false] (fun _ => some (1 : Nat))).get? 0 = some none
        ↔ true = false) :=
  authState_triple_consistency [true, false] (fun _ => some 0) (fun _ => some 1)
    (fun _ _ => rfl) (fun _ _ => rfl) 0 true rfl

/-- Claim C2 counterexample: the code combines the trigger checks with
`merge`/`mergeMap`, so two overlapping checks that resolve out of
submission order are emitted in resolution order, not queue order: for
checks queued `[false, true]` resolving in the opposite order, the
emissions are `[true, false]`, not the serialized `[false, true]`. -/
theorem mergeMap_overlap_counterexample :
    mergeMapEmissions [(false, 2), (true, 1)] = [true, false]
    ∧ concatEmissions [(false, 2), (true, 1)] = [false, true]
    ∧ mergeMapEmissions [(false, 2), (true, 1)]
        ≠ concatEmissions [(false, 2), (true, 1)] := by
  decide

/-- Claim C2 (amended): the merged trigger emits check results in
resolution order; the emission sequence matches the order the triggers
were queued exactly when the checks resolve in submission order
(e.g. strictly increasing resolution instants). -/
theorem mergeMap_order_preserved_of_ordered_resolution
    (l : List (Bool × Nat)) (h : l.Chain' (fun a b => a.2 < b.2)) :
    mergeMapEmissions l = concatEmissions l := by
  rw [mergeMapEmissions, sortByTime_of_chain l h]
  rfl

/-- Witness for the amended C2 at a concrete input. -/
theorem mergeMap_order_preserved_witness :
    ([(false, 1), (true, 2)] : List (Bool × Nat)).Chain' (fun a b => a.2 < b.2)
    ∧ mergeMapEmissions [(false, 1), (true, 2)]
        = concatEmissions [(false, 1), (true, 2)] :=
  ⟨by simp [List.chain'_cons, List.chain'_singleton],
    mergeMap_order_preserved_of_ordered_resolution [(false, 1), (true, 2)]
      (by simp [List.chain'_cons, List.chain'_singleton])⟩

/-- Claim C3 counterexample: when a check rejects, nothing reaches
`error$` (the pipeline never calls `setError`), the stream instead
terminates with the error, and subsequent triggers are never evaluated:
for checks `[ok true, error 0, ok false]` the error channel stays
empty, the stream errors with `0`, and only `[true]` was emitted. -/
theorem check_error_counterexample :
    (runChecks [Except.ok true, Except.error (0 : Nat), Except.ok false]).errorChannel = []
    ∧ ¬ (0 ∈ (runChecks [Except.ok true, Except.error (0 : Nat), Except.ok false]).errorChannel)
    ∧ (runChecks [Except.ok true, Except.error (0 : Nat), Except.ok false]).streamError = some 0
    ∧ isAuthenticatedAfterChecks [Except.ok true, Except.error (0 : Nat), Except.ok false]
        = [true] := by
  refine ⟨rfl, ?_, rfl, rfl⟩
  simp [runChecks]

/-- Claim C3 (amended): a rejected check is not recorded on `error$`;
it propagates as a terminal stream error on `isAuthenticated$`
(replayed by `shareReplay(1)`), no value is emitted for the failing
trigger, no later trigger is evaluated, and the emissions before the
failure are the last values a subscriber observes. -/
theorem check_error_terminates_stream {E : Type _} (pre : List Bool) (e : E)
    (post : List (Except E Bool)) :
    runChecks ((pre.map .ok) ++ .error e :: post)
      = { emissions := pre, streamError := some e, errorChannel := [] }
    ∧ isAuthenticatedAfterChecks ((pre.map .ok) ++ .error e :: post)
      = distinctUntilChanged pre := by
  refine ⟨runChecks_ok_append pre e post, ?_⟩
  rw [isAuthenticatedAfterChecks, runChecks_ok_append]

/-- Claim C5: per instance, `isLoading$` starts at `true` and emits
`false` at most once; an instance destroyed before its session check
resolves keeps `[true]` (the late resolution is suppressed); when the
check resolves on a live instance the emissions are exactly
`[true, false]`, so a later subscriber immediately receives `false`. -/
theorem isLoading_lifecycle (evs : List SvcEvent)
    (h : evs.count SvcEvent.resolveSessionCheck ≤ 1) :
    (svcRun evs).loadingEmissions.count false ≤ 1
    ∧ (∀ pre post, evs = pre ++ SvcEvent.destroy :: post →
        (∀ e ∈ pre, e = SvcEvent.destroy) →
        (svcRun evs).loadingEmissions = [true])
    ∧ (∀ rest, evs = SvcEvent.resolveSessionCheck :: rest →
        (svcRun evs).loadingEmissions = [true, false]
        ∧ (svcRun evs).loadingEmissions.getLast? = some false) := by
  refine ⟨?_, ?_, ?_⟩
  · calc (svcRun evs).loadingEmissions.count false
        ≤ svcInit.loadingEmissions.count false
            + evs.count SvcEvent.resolveSessionCheck := svcFold_count_false evs svcInit
      _ ≤ 0 + 1 := by
          apply Nat.add_le_add _ h
          simp [svcInit]
      _ = 1 := by omega
  · intro pre post heq hpre
    subst heq
    rw [svcRun, List.foldl_append, List.foldl_cons]
    have hs1 : ((pre.foldl svcStep svcInit).loadingEmissions) = [true] :=
      svcFold_no_resolve pre svcInit hpre
    have hdest : (svcStep (pre.foldl svcStep svcInit) SvcEvent.destroy).destroyed = true := by
      simp [svcStep]
    rw [svcFold_destroyed post _ hdest]
    simpa [svcStep] using hs1
  · intro rest heq
    subst heq
    have hrest : rest.count SvcEvent.resolveSessionCheck = 0 := by
      rw [List.count_cons_self] at h
      omega
    have hnores : ∀ e ∈ rest, e = SvcEvent.destroy := by
      intro e he
      cases e with
      | destroy => rfl
      | resolveSessionCheck =>
        exact absurd (List.count_pos_iff.mpr he)
          (by simp [hrest])
    rw [svcRun, List.foldl_cons]
    have hstep : svcStep svcInit SvcEvent.resolveSessionCheck
        = { destroyed := false, loadingEmissions := [true, false] } := by
      simp [svcStep, svcInit]
    rw [hstep]
    constructor
    · exact svcFold_no_resolve rest _ hnores
    · rw [svcFold_no_resolve rest _ hnores]
      rfl

/-- Witness for C5 at a concrete input. -/
theorem isLoading_lifecycle_witness :
    ([SvcEvent.resolveSessionCheck, SvcEvent.destroy].count
        SvcEvent.resolveSessionCheck ≤ 1)
    ∧ ((svcRun [SvcEvent.resolveSessionCheck, SvcEvent.destroy]).loadingEmissions.count false ≤ 1
      ∧ (∀ pre post,
          [SvcEvent.resolveSessionCheck, SvcEvent.destroy]
            = pre ++ SvcEvent.destroy :: post →
          (∀ e ∈ pre, e = SvcEvent.destroy) →
          (svcRun [SvcEvent.resolveSessionCheck, SvcEvent.destroy]).loadingEmissions = [true])
      ∧ (∀ rest,
          [SvcEvent.resolveSessionCheck, SvcEvent.destroy]
            = SvcEvent.resolveSessionCheck :: rest →
          (svcRun [SvcEvent.resolveSessionCheck, SvcEvent.destroy]).loadingEmissions
              = [true, false]
          ∧ (svcRun [SvcEvent.resolveSessionCheck, SvcEvent.destroy]).loadingEmissions.getLast?
              = some false)) :=
  ⟨by decide,
    isLoading_lifecycle [SvcEvent.resolveSessionCheck, SvcEvent.destroy] (by decide)⟩

/-- Claim C6: a redirect-callback run that is not skipped navigates
exactly once, on success and on failure alike, and the target follows
the claimed selection rule: the app-state's path if present, else the
configured error path on failure, else the root path. -/
theorem redirect_callback_navigation {E : Type _} (cfg : AuthCfg)
    (cbResult : Except E (Option AppState))
    (h : ¬ cfg.skipRedirectCallback) :
    (runStartup cfg true cbResult).navCalls = [claimedTarget cfg cbResult]
    ∧ (runStartup cfg true cbResult).navCalls.length = 1
    ∧ (runStartup cfg true cbResult).handleCallbackCalls = 1 := by
  cases cbResult with
  | ok appSt =>
    cases hsub : appSt.bind (·.target) with
    | none => simp [runStartup, claimedTarget, h, hsub]
    | some p => simp [runStartup, claimedTarget, h, hsub]
  | error e =>
    cases hpath : cfg.errorPath with
    | none => simp [runStartup, claimedTarget, h, hpath]
    | some p => simp [runStartup, claimedTarget, h, hpath]

/-- Witness for C6 at a concrete input (the app state of the test
carries the target path `/test-route`). -/
theorem redirect_callback_navigation_witness :
    ¬ (AuthCfg.mk false none).skipRedirectCallback
    ∧ ((runStartup (AuthCfg.mk false none) true
          (Except.ok (some (AppState.mk (some "/test-route")))
            : Except Nat (Option AppState))).navCalls
        = [claimedTarget (AuthCfg.mk false none)
            (Except.ok (some (AppState.mk (some "/test-route")))
              : Except Nat (Option AppState))]
      ∧ (runStartup (AuthCfg.mk false none) true
          (Except.ok (some (AppState.mk (some "/test-route")))
            : Except Nat (Option AppState))).navCalls.length = 1
      ∧ (runStartup (AuthCfg.mk false none) true
          (Except.ok (some (AppState.mk (some "/test-route")))
            : Except Nat (Option AppState))).handleCallbackCalls = 1) :=
  ⟨by decide,
    redirect_callback_navigation (AuthCfg.mk false none)
      (Except.ok (some (AppState.mk (some "/test-route")))) (by decide)⟩

/-- Claim C7: when the callback exchange throws during a non-skipped
startup run, the error is emitted on the error channel AND navigation
still happens (to the configured error path, or the root path), and the
startup sequence still completes (loading ends `false`). -/
theorem redirect_callback_error_nonfatal {E : Type _} (cfg : AuthCfg) (e : E)
    (h : ¬ cfg.skipRedirectCallback) :
    (runStartup cfg true (Except.error e)).errors = [e]
    ∧ (runStartup cfg true (Except.error e)).navCalls = [cfg.errorPath.getD "/"]
    ∧ (runStartup cfg true (Except.error e)).navCalls.length = 1
    ∧ (runStartup cfg true (Except.error e)).loadingFinal = false := by
  simp [runStartup, h]

/-- Witness for C7 at a concrete input (no error path configured, so
navigation falls back to the root path). -/
theorem redirect_callback_error_nonfatal_witness :
    ¬ (AuthCfg.mk false none).skipRedirectCallback
    ∧ ((runStartup (AuthCfg.mk false none) true
          (Except.error (7 : Nat) : Except Nat (Option AppState))).errors = [7]
      ∧ (runStartup (AuthCfg.mk false none) true
          (Except.error (7 : Nat) : Except Nat (Option AppState))).navCalls
            = [(AuthCfg.mk false none).errorPath.getD "/"]
      ∧ (runStartup (AuthCfg.mk false none) true
          (Except.error (7 : Nat) : Except Nat (Option AppState))).navCalls.length = 1
      ∧ (runStartup (AuthCfg.mk false none) true
          (Except.error (7 : Nat) : Except Nat (Option AppState))).loadingFinal = false) :=
  ⟨by decide,
    redirect_callback_error_nonfatal (AuthCfg.mk false none) (7 : Nat) (by decide)⟩

end AuthokAngular
